import Mathlib

/-!
Shallow embedding of `src/modules/partition/jobs/FillGlobalStorageJob.cpp`
from the Calamares installer (piscesys fork).

The job translates an in-memory device/partition topology (KPMcore objects)
into variant-map records and stores them in the installer's global storage.
External collaborators (filesystem UUID lookup, the `cryptsetup luksUUID`
subprocess, the branding short product name) are modelled as an explicit
environment record, so all job functions are pure.
-/

set_option autoImplicit false

namespace Calamares

/-- Variant values (`QVariant`): default-constructed (invalid), string,
bool, string-keyed map (`QVariantMap`) and list (`QVariantList`). -/
inductive QVariant where
  | invalid : QVariant
  | str : String → QVariant
  | bool : Bool → QVariant
  | map : List (String × QVariant) → QVariant
  | list : List QVariant → QVariant

/-- Embeds `QVariant::isValid()`. -/
def QVariant.isValid : QVariant → Bool
  | .invalid => false
  | _ => true

/-- Embeds `QVariant::toString()`: strings convert to themselves, bools to
"true"/"false", maps/lists and invalid variants to the empty string. -/
def QVariant.toString : QVariant → String
  | .str s => s
  | .bool b => if b then "true" else "false"
  | _ => ""

/-- Embeds `QVariant::toMap()`: the held map, or empty for non-map variants. -/
def QVariant.toMap : QVariant → List (String × QVariant)
  | .map m => m
  | _ => []

/-- Embeds `QVariant::toList()`: the held list, or empty for non-list variants. -/
def QVariant.toList : QVariant → List QVariant
  | .list l => l
  | _ => []

/-- Insert into a string-keyed association map, overwriting the value at an
existing key in place (`QVariantMap::operator[]` assignment /
`GlobalStorage::insert` semantics). -/
def vmInsert : List (String × QVariant) → String → QVariant → List (String × QVariant)
  | [], k, v => [(k, v)]
  | (k', v') :: t, k, v => if k' = k then (k, v) :: t else (k', v') :: vmInsert t k v

/-- Embeds `QVariantMap::value(key)`: the value at `key`, or an invalid variant
when the key is absent. -/
def vmValue : List (String × QVariant) → String → QVariant
  | [], _ => QVariant.invalid
  | (k', v') :: t, k => if k' = k then v' else vmValue t k

/-- The keys of an association map, in entry order. -/
def vmKeys (m : List (String × QVariant)) : List String :=
  m.map Prod.fst

/-- KPMcore `FileSystem::Type` values (only `luks` is distinguished by the
job; the rest are representative members of the enum). -/
inductive FSType where
  | luks | ext2 | ext3 | ext4 | btrfs | xfs | fat32 | ntfs | linuxswap | unknownType
deriving DecidableEq

/-- The filesystem object returned by `FS::luks::innerFS()`: the filesystem
wrapped inside a LUKS container (a plain KPMcore `FileSystem`). -/
structure InnerFS where
  untranslatedName : String
  userVisibleName : String

/-- A KPMcore filesystem object. `luksFs` corresponds to an actual
`FS::luks` instance (the only class whose `type()` is `FileSystem::Luks`,
hence the `luksFs` constructor carries no type tag); `plain` is any other
`FileSystem` subclass, carrying its own type tag. -/
inductive FSObject where
  | plain (fstype : FSType) (untranslatedName userVisibleName : String)
  | luksFs (untranslatedName userVisibleName : String)
      (innerFS : Option InnerFS) (mapperName passphrase : String)

/-- Embeds `FileSystem::type()`. -/
def FSObject.fstype : FSObject → FSType
  | .plain t _ _ => t
  | .luksFs .. => .luks

/-- Whether `dynamic_cast< FS::luks* >` on the object succeeds. -/
def FSObject.isLuksInstance : FSObject → Bool
  | .luksFs .. => true
  | .plain .. => false

/-- Embeds `FS::luks::innerFS()`; null (none) outside an `FS::luks` instance. -/
def FSObject.innerFS : FSObject → Option InnerFS
  | .plain .. => none
  | .luksFs _ _ i _ _ => i

/-- Embeds `FS::luks::mapperName()` (empty outside an `FS::luks` instance; the
source only reads it after a successful downcast). -/
def FSObject.mapperName : FSObject → String
  | .plain .. => ""
  | .luksFs _ _ _ m _ => m

/-- Embeds `FS::luks::passphrase()` (empty outside an `FS::luks` instance). -/
def FSObject.passphrase : FSObject → String
  | .plain .. => ""
  | .luksFs _ _ _ _ p => p

/-- Embeds `KPMHelpers::untranslatedFS( FileSystem& )`: the canonical
(untranslated) filesystem name. -/
def untranslatedFS (f : FSObject) : String :=
  match f with
  | .plain _ n _ => n
  | .luksFs n _ _ _ _ => n

/-- Embeds `KPMHelpers::userVisibleFS( FileSystem& )`: the translated,
human-readable filesystem name. -/
def userVisibleFS (f : FSObject) : String :=
  match f with
  | .plain _ _ n => n
  | .luksFs _ n _ _ _ => n

/-- Embeds `KPMHelpers::untranslatedFS( FileSystem* )` applied to the result of
`innerFS()`: empty for a null pointer. -/
def untranslatedInnerFS : Option InnerFS → String
  | none => ""
  | some i => i.untranslatedName

/-- KPMcore `Partition::State` (the job only tests for `StateNew`). -/
inductive PartitionState where
  | stateNone | stateNew | stateCopy | stateRestore
deriving DecidableEq

/-- A KPMcore `Partition` together with the Calamares-side attributes the
job reads: `PartitionInfo::mountPoint` and whether
`roles().has( PartitionRole::Luks )`. -/
structure Partition where
  partitionPath : String
  deviceNode : String
  mountPoint : String
  fileSystem : FSObject
  state : PartitionState
  roleLuks : Bool

/-- A KPMcore `Device`: its node and the partitions yielded by
`PartitionIterator` in order. -/
structure Device where
  deviceNode : String
  partitions : List Partition

/-- Embeds `QProcess::ExitStatus`. -/
inductive ExitStatus where
  | normalExit | crashExit
deriving DecidableEq

/-- Outcome of one subprocess run: exit status, exit code, and the standard
output already decoded from the local 8-bit encoding
(`QString::fromLocal8Bit`). -/
structure ProcessResult where
  exitStatus : ExitStatus
  exitCode : Int
  stdoutLocal : String

/-- The external environment of the job: the filesystem driver's
`readUUID` for a partition path, the result of running
`cryptsetup luksUUID <path>`, and the branding short product name. -/
structure Env where
  readUUID : FSObject → String → String
  cryptsetup : String → ProcessResult
  shortProductName : String

/-- Embeds `getLuksUuid`: run `cryptsetup luksUUID path`; on abnormal termination
or a non-zero exit code return the empty string, otherwise the trimmed
decoded standard output. -/
def getLuksUuid (env : Env) (path : String) : String :=
  let process := env.cryptsetup path
  if process.exitStatus ≠ ExitStatus.normalExit ∨ process.exitCode ≠ 0 then
    ""
  else
    process.stdoutLocal.trim

/-- Insert into the partition-path → UUID hash, overwriting an existing
key (`QHash::insert`). -/
def uhInsert : List (String × String) → String → String → List (String × String)
  | [], k, v => [(k, v)]
  | (k', v') :: t, k, v => if k' = k then (k, v) :: t else (k', v') :: uhInsert t k v

/-- Embeds `QHash::value(key)`: the stored value, or the default-constructed
(empty) string when the key is absent. -/
def uhValue : List (String × String) → String → String
  | [], _ => ""
  | (k', v') :: t, k => if k' = k then v' else uhValue t k

/-- Embeds `findPartitionUuids`: for every partition of every device, record
`path ↦ fileSystem().readUUID( path )`. -/
def findPartitionUuids (env : Env) (devices : List Device) : List (String × String) :=
  devices.foldl
    (fun h device =>
      device.partitions.foldl
        (fun h p => uhInsert h p.partitionPath (env.readUUID p.fileSystem p.partitionPath))
        h)
    []

/-- Embeds `mapperName().split( "/" ).last()`: the last `/`-separated segment
(`QString::split` keeps empty parts, so the empty string splits to
`[""]`). -/
def lastPathSegment (s : String) : String :=
  (s.splitOn "/").getLastD ""

/-- Embeds the `QVariantMap` built by `mapForPartition`. The `"fs"` value
is replaced by the inner filesystem's canonical name when the filesystem
type is LUKS and an inner filesystem was detected; the three LUKS keys are
added when the partition has the LUKS role and the filesystem object
downcasts to `FS::luks`. -/
def mapForPartitionEntries (env : Env) (partition : Partition) (uuid : String) :
    List (String × QVariant) :=
  let m : List (String × QVariant) := []
  let m := vmInsert m "device" (.str partition.partitionPath)
  let m := vmInsert m "mountPoint" (.str partition.mountPoint)
  let m := vmInsert m "fsName" (.str (userVisibleFS partition.fileSystem))
  let m := vmInsert m "fs" (.str (untranslatedFS partition.fileSystem))
  let m :=
    if partition.fileSystem.fstype = FSType.luks ∧ partition.fileSystem.innerFS.isSome then
      vmInsert m "fs" (.str (untranslatedInnerFS partition.fileSystem.innerFS))
    else m
  let m := vmInsert m "uuid" (.str uuid)
  let m := vmInsert m "new" (.bool (partition.state = PartitionState.stateNew))
  let m :=
    if partition.roleLuks ∧ partition.fileSystem.isLuksInstance then
      let m := vmInsert m "luksMapperName" (.str (lastPathSegment partition.fileSystem.mapperName))
      let m := vmInsert m "luksUuid" (.str (getLuksUuid env partition.partitionPath))
      vmInsert m "luksPassphrase" (.str partition.fileSystem.passphrase)
    else m
  m

/-- Embeds `mapForPartition`: the record map wrapped as a `QVariant`
(`return map;`). -/
def mapForPartition (env : Env) (partition : Partition) (uuid : String) : QVariant :=
  QVariant.map (mapForPartitionEntries env partition uuid)

/-- Embeds `FillGlobalStorageJob::createPartitionList`: the ordered list of
partition records over all devices, with UUIDs taken from the lookup
hash. -/
def createPartitionList (env : Env) (devices : List Device) : QVariant :=
  let hash := findPartitionUuids env devices
  QVariant.list
    (devices.foldl
      (fun lst device =>
        device.partitions.foldl
          (fun lst p => lst ++ [mapForPartition env p (uhValue hash p.partitionPath)])
          lst)
      [])

/-- Embeds `QString::startsWith`: whether the second string is a prefix of
the first one's character sequence. -/
def qtStartsWith (s pre : String) : Bool :=
  pre.data.isPrefixOf s.data

/-- Modelled from the spec: `KPMHelpers::findPartitionByMountPoint` is not
part of the excerpt; per the spec a mount-point bootloader target is
"resolved to the device path of the partition currently mapped to that
mount point among the given devices", so this returns the first partition
whose mount point equals the given string, if any. -/
def findPartitionByMountPoint (devices : List Device) (mountPoint : String) : Option Partition :=
  (devices.foldl (fun acc device => acc ++ device.partitions) []).find?
    (fun p => p.mountPoint = mountPoint)

/-- Embeds `FillGlobalStorageJob::createBootLoaderMap`: a `{installPath}` record;
a path not starting with "/dev/" is resolved as a mount point, and an
unresolved mount point yields an invalid variant. -/
def createBootLoaderMap (devices : List Device) (bootLoaderPath : String) : QVariant :=
  let path := bootLoaderPath
  if ¬ qtStartsWith path "/dev/" then
    match findPartitionByMountPoint devices path with
    | none => QVariant.invalid
    | some partition => QVariant.map (vmInsert [] "installPath" (.str partition.partitionPath))
  else
    QVariant.map (vmInsert [] "installPath" (.str path))

/-- Embeds `Calamares::JobResult`: success, or an error with message/details. -/
inductive JobResult where
  | ok : JobResult
  | error (message details : String) : JobResult
deriving DecidableEq

/-- The global storage: a string-keyed variant map written through
`GlobalStorage::insert`. -/
def GStorage := List (String × QVariant)

/-- Embeds `FillGlobalStorageJob::exec`: store the partition list under
"partitions", store the bootloader record (possibly invalid) or an
explicitly invalid value under "bootLoader", and report success. -/
def exec (env : Env) (devices : List Device) (bootLoaderPath : String)
    (storage : GStorage) : JobResult × GStorage :=
  let storage := vmInsert storage "partitions" (createPartitionList env devices)
  let storage :=
    if ¬ bootLoaderPath.isEmpty then
      let var := createBootLoaderMap devices bootLoaderPath
      vmInsert storage "bootLoader" var
    else
      vmInsert storage "bootLoader" QVariant.invalid
  (JobResult.ok, storage)

/-- The description line for a new partition mounted at "/"
(`tr( "Install %1 on <strong>new</strong> %2 system partition." )`). -/
def systemPartitionNewLine (shortProductName fsType : String) : String :=
  "Install " ++ shortProductName ++ " on <strong>new</strong> " ++ fsType
    ++ " system partition."

/-- The description line for a new partition with a non-root mount point
(`tr( "Set up <strong>new</strong> %2 partition with mount point <strong>%1</strong>." )`). -/
def mountPointNewLine (mountPoint fsType : String) : String :=
  "Set up <strong>new</strong> " ++ fsType ++ " partition with mount point <strong>"
    ++ mountPoint ++ "</strong>."

/-- The description line for an existing partition mounted at "/"
(`tr( "Install %2 on %3 system partition <strong>%1</strong>." )`). -/
def systemPartitionExistingLine (path shortProductName fsType : String) : String :=
  "Install " ++ shortProductName ++ " on " ++ fsType ++ " system partition <strong>"
    ++ path ++ "</strong>."

/-- The description line for an existing partition with a non-root mount
point (`tr( "Set up %3 partition <strong>%1</strong> with mount point <strong>%2</strong>." )`). -/
def mountPointExistingLine (path mountPoint fsType : String) : String :=
  "Set up " ++ fsType ++ " partition <strong>" ++ path ++ "</strong> with mount point <strong>"
    ++ mountPoint ++ "</strong>."

/-- The bootloader description line
(`tr( "Install boot loader on <strong>%1</strong>." )`). -/
def bootLoaderLine (path : String) : String :=
  "Install boot loader on <strong>" ++ path ++ "</strong>."

/-- One iteration of the description loop in `prettyDescription`: the line
appended for a partition-list item, or none when the item is skipped
(non-map item, or empty mount point or filesystem name). -/
def descriptionLineFor (shortProductName : String) (item : QVariant) : Option String :=
  match item with
  | .map m =>
    let path := (vmValue m "device").toString
    let mountPoint := (vmValue m "mountPoint").toString
    let fsType := (vmValue m "fs").toString
    if mountPoint.isEmpty ∨ fsType.isEmpty then
      none
    else if path.isEmpty then
      if mountPoint = "/" then some (systemPartitionNewLine shortProductName fsType)
      else some (mountPointNewLine mountPoint fsType)
    else
      if mountPoint = "/" then some (systemPartitionExistingLine path shortProductName fsType)
      else some (mountPointExistingLine path mountPoint fsType)
  | _ => none

/-- The list of lines built by `FillGlobalStorageJob::prettyDescription`
before joining: one line per displayable partition record, then the
bootloader line when the configured path is non-empty. The bootloader map
is computed (as in the source) but its value is not consulted. -/
def prettyDescriptionLines (env : Env) (devices : List Device)
    (bootLoaderPath : String) : List String :=
  let lines :=
    ((createPartitionList env devices).toList).filterMap
      (descriptionLineFor env.shortProductName)
  let _bootloaderMap := createBootLoaderMap devices bootLoaderPath
  if ¬ bootLoaderPath.isEmpty then
    lines ++ [bootLoaderLine bootLoaderPath]
  else
    lines

/-- Embeds `FillGlobalStorageJob::prettyDescription`: the lines joined with
"<br/>". -/
def prettyDescription (env : Env) (devices : List Device)
    (bootLoaderPath : String) : String :=
  String.intercalate "<br/>" (prettyDescriptionLines env devices bootLoaderPath)

/-! ### Concrete fixtures used by counterexamples and witnesses -/

/-- An environment whose UUID query succeeds with padded output. -/
def envFix : Env :=
  ⟨fun _ _ => "2222-aaaa", fun _ => ⟨ExitStatus.normalExit, 0, " 1234-uuid \n"⟩, "Pisces"⟩

/-- An environment whose UUID query exits with code 2. -/
def envFail : Env :=
  ⟨fun _ _ => "2222-aaaa", fun _ => ⟨ExitStatus.normalExit, 2, "garbage"⟩, "Pisces"⟩

/-- An environment whose UUID query crashes. -/
def envCrash : Env :=
  ⟨fun _ _ => "", fun _ => ⟨ExitStatus.crashExit, 0, "garbage"⟩, "Pisces"⟩

/-- A plain ext4 partition mounted at /boot. -/
def extPart : Partition :=
  ⟨"/dev/sda1", "/dev/sda", "/boot", FSObject.plain FSType.ext4 "ext4" "ext4",
    PartitionState.stateNone, false⟩

/-- A LUKS partition with a detected ext4 inner filesystem, mounted at /. -/
def luksPart : Partition :=
  ⟨"/dev/sda2", "/dev/sda", "/",
    FSObject.luksFs "luks" "LUKS" (some ⟨"ext4", "ext4"⟩) "/dev/mapper/luks-1234" "pw",
    PartitionState.stateNew, true⟩

/-- A device holding the two fixture partitions. -/
def sdaDev : Device :=
  ⟨"/dev/sda", [extPart, luksPart]⟩

/-! ### Helper lemmas about map insertion -/

theorem vmValue_vmInsert_self (m : List (String × QVariant)) (k : String) (v : QVariant) :
    vmValue (vmInsert m k v) k = v := by
  induction m with
  | nil => simp [vmInsert, vmValue]
  | cons e t ih =>
    obtain ⟨ek, ev⟩ := e
    by_cases h : ek = k <;> simp [vmInsert, vmValue, h, ih]

theorem vmValue_vmInsert_ne (m : List (String × QVariant)) (k q : String) (v : QVariant)
    (h : k ≠ q) : vmValue (vmInsert m k v) q = vmValue m q := by
  induction m with
  | nil => simp [vmInsert, vmValue, h]
  | cons e t ih =>
    obtain ⟨ek, ev⟩ := e
    by_cases hek : ek = k <;> simp [vmInsert, vmValue, hek, h, ih]

theorem vmInsert_vmInsert_self (m : List (String × QVariant)) (k : String) (v w : QVariant) :
    vmInsert (vmInsert m k v) k w = vmInsert m k w := by
  induction m with
  | nil => simp [vmInsert]
  | cons e t ih =>
    obtain ⟨ek, ev⟩ := e
    by_cases h : ek = k <;> simp [vmInsert, h, ih]

/-- Embeds `QVariantMap::contains`. -/
def vmContains : List (String × QVariant) → String → Bool
  | [], _ => false
  | (k', _) :: t, k => k' = k || vmContains t k

theorem vmContains_vmInsert_self (m : List (String × QVariant)) (k : String) (v : QVariant) :
    vmContains (vmInsert m k v) k = true := by
  induction m with
  | nil => simp [vmInsert, vmContains]
  | cons e t ih =>
    obtain ⟨ek, ev⟩ := e
    by_cases h : ek = k <;> simp [vmInsert, vmContains, h, ih]

theorem vmContains_vmInsert (m : List (String × QVariant)) (k q : String) (v : QVariant)
    (h : vmContains m q = true) : vmContains (vmInsert m k v) q = true := by
  induction m with
  | nil => simp [vmContains] at h
  | cons e t ih =>
    obtain ⟨ek, ev⟩ := e
    by_cases hk : ek = k
    · subst hk
      rcases (by simpa [vmContains] using h : ek = q ∨ vmContains t q = true) with hq | hq <;>
        simp [vmInsert, vmContains, hq]
    · rcases (by simpa [vmContains] using h : ek = q ∨ vmContains t q = true) with hq | hq
      · subst hq
        simp [vmInsert, vmContains, hk]
      · simp [vmInsert, vmContains, hk, ih hq]

theorem vmInsert_eq_self (m : List (String × QVariant)) (k : String) (v : QVariant)
    (hmem : vmContains m k = true) (hval : vmValue m k = v) : vmInsert m k v = m := by
  induction m with
  | nil => simp [vmContains] at hmem
  | cons e t ih =>
    obtain ⟨ek, ev⟩ := e
    by_cases h : ek = k
    · subst h
      simp [vmValue] at hval
      simp [vmInsert, hval]
    · have hq : vmContains t k = true := by simpa [vmContains, h] using hmem
      have hv : vmValue t k = v := by simpa [vmValue, h] using hval
      simp [vmInsert, h, ih hq hv]

/-! ### Claims -/

/-- Claim C2: for every device list, bootloader path and prior storage
contents, `exec` returns a success result; no input produces an error
result. -/
theorem C2_exec_always_ok (env : Env) (devices : List Device) (bootLoaderPath : String)
    (storage : GStorage) :
    (exec env devices bootLoaderPath storage).1 = JobResult.ok := by
  unfold exec
  by_cases h : bootLoaderPath.isEmpty <;> simp [h]

/-- Claim C4: a bootloader path starting with "/dev/" passes into the
record's "installPath" field verbatim, with no mount-point resolution. -/
theorem C4_rawDevicePath_verbatim (devices : List Device) (bootLoaderPath : String)
    (h : qtStartsWith bootLoaderPath "/dev/") :
    createBootLoaderMap devices bootLoaderPath
      = QVariant.map [("installPath", QVariant.str bootLoaderPath)] := by
  simp [createBootLoaderMap, h, vmInsert]

/-- Witness for C4 at the concrete raw path "/dev/sda". -/
theorem C4_rawDevicePath_verbatim_witness :
    (qtStartsWith "/dev/sda" "/dev/") = true
    ∧ createBootLoaderMap [sdaDev] "/dev/sda"
        = QVariant.map [("installPath", QVariant.str "/dev/sda")] :=
  ⟨by decide, C4_rawDevicePath_verbatim [sdaDev] "/dev/sda" (by decide)⟩

/-- Claim C5: `getLuksUuid` returns the empty string when the subprocess
terminates abnormally or exits non-zero, and otherwise returns the locally
decoded standard output trimmed of surrounding whitespace. -/
theorem C5_getLuksUuid_spec (env : Env) (path : String) :
    ((env.cryptsetup path).exitStatus ≠ ExitStatus.normalExit
        ∨ (env.cryptsetup path).exitCode ≠ 0 →
      getLuksUuid env path = "")
    ∧ ((env.cryptsetup path).exitStatus = ExitStatus.normalExit →
        (env.cryptsetup path).exitCode = 0 →
      getLuksUuid env path = (env.cryptsetup path).stdoutLocal.trim) := by
  constructor
  · intro h
    simp [getLuksUuid, h]
  · intro h1 h2
    simp [getLuksUuid, h1, h2]

/-- Witness for C5: a failing query yields "", a successful one yields the
trimmed output. -/
theorem C5_getLuksUuid_spec_witness :
    getLuksUuid envFail "/dev/sda2" = ""
    ∧ getLuksUuid envFix "/dev/sda2" = (" 1234-uuid \n").trim :=
  ⟨(C5_getLuksUuid_spec envFail "/dev/sda2").1 (Or.inr (by decide)),
   (C5_getLuksUuid_spec envFix "/dev/sda2").2 rfl rfl⟩

/-- Claim C3: a non-empty bootloader path that is not a raw device path and
matches no partition mount point yields an invalid bootloader value, which
`exec` still stores under "bootLoader" while succeeding. -/
theorem C3_unresolved_bootloader_absent (env : Env) (devices : List Device)
    (bootLoaderPath : String) (storage : GStorage)
    (h1 : ¬ bootLoaderPath.isEmpty) (h2 : ¬ qtStartsWith bootLoaderPath "/dev/")
    (h3 : findPartitionByMountPoint devices bootLoaderPath = none) :
    createBootLoaderMap devices bootLoaderPath = QVariant.invalid
    ∧ vmValue (exec env devices bootLoaderPath storage).2 "bootLoader" = QVariant.invalid
    ∧ (exec env devices bootLoaderPath storage).1 = JobResult.ok := by
  have hb : createBootLoaderMap devices bootLoaderPath = QVariant.invalid := by
    simp [createBootLoaderMap, h2, h3]
  refine ⟨hb, ?_, rfl⟩
  simp [exec, h1, hb, vmValue_vmInsert_self]

/-- Witness for C3 at the unresolvable mount point "/efi". -/
theorem C3_unresolved_bootloader_absent_witness :
    (¬ ("/efi").isEmpty ∧ ¬ qtStartsWith "/efi" "/dev/"
      ∧ findPartitionByMountPoint [sdaDev] "/efi" = none)
    ∧ createBootLoaderMap [sdaDev] "/efi" = QVariant.invalid
    ∧ vmValue (exec envFix [sdaDev] "/efi" []).2 "bootLoader" = QVariant.invalid
    ∧ (exec envFix [sdaDev] "/efi" []).1 = JobResult.ok :=
  ⟨⟨by decide, by decide, rfl⟩,
   C3_unresolved_bootloader_absent envFix [sdaDev] "/efi" [] (by decide) (by decide) rfl⟩

/-- Claim C1 is false as stated: for the LUKS fixture partition with inner
filesystem "ext4", the record's "fs" value is the inner name but the
"fsName" value stays the outer container's user-visible name "LUKS". -/
theorem C1_counterexample :
    luksPart.fileSystem.fstype = FSType.luks
    ∧ luksPart.fileSystem.innerFS = some ⟨"ext4", "ext4"⟩
    ∧ userVisibleFS luksPart.fileSystem = "LUKS"
    ∧ vmValue (mapForPartition envFix luksPart "u-1").toMap "fs" = QVariant.str "ext4"
    ∧ vmValue (mapForPartition envFix luksPart "u-1").toMap "fsName" = QVariant.str "LUKS"
    ∧ "LUKS" ≠ "ext4" :=
  ⟨rfl, rfl, rfl, rfl, rfl, by decide⟩

/-- Claim C1 (amended): for a LUKS partition with a detected inner
filesystem, only the canonical name key "fs" is substituted with the inner
filesystem's name; the display key "fsName" keeps the outer container's
user-visible name. -/
theorem C1_amended_inner_fs (env : Env) (uuid : String) (p : Partition)
    (un uv mn pp : String) (inner : InnerFS)
    (h : p.fileSystem = FSObject.luksFs un uv (some inner) mn pp) :
    vmValue (mapForPartition env p uuid).toMap "fs" = QVariant.str inner.untranslatedName
    ∧ vmValue (mapForPartition env p uuid).toMap "fsName" = QVariant.str uv := by
  obtain ⟨ppath, dnode, mpoint, fs, st, rl⟩ := p
  simp only at h
  subst h
  cases rl <;>
    simp [mapForPartition, mapForPartitionEntries, vmInsert, vmValue, QVariant.toMap,
      FSObject.fstype, FSObject.innerFS, FSObject.isLuksInstance, untranslatedInnerFS,
      untranslatedFS, userVisibleFS]

/-- Witness for the amended C1 at the LUKS fixture partition. -/
theorem C1_amended_inner_fs_witness :
    vmValue (mapForPartition envFix luksPart "u-2").toMap "fs" = QVariant.str "ext4"
    ∧ vmValue (mapForPartition envFix luksPart "u-2").toMap "fsName" = QVariant.str "LUKS" :=
  C1_amended_inner_fs envFix "u-2" luksPart "luks" "LUKS" "/dev/mapper/luks-1234" "pw"
    ⟨"ext4", "ext4"⟩ rfl

/-- The bootloader map is either a single-key installPath record or
invalid. -/
theorem createBootLoaderMap_shape (devices : List Device) (bootLoaderPath : String) :
    (∃ ipath, createBootLoaderMap devices bootLoaderPath
        = QVariant.map [("installPath", QVariant.str ipath)])
    ∨ createBootLoaderMap devices bootLoaderPath = QVariant.invalid := by
  unfold createBootLoaderMap
  by_cases h : qtStartsWith bootLoaderPath "/dev/"
  · exact Or.inl ⟨bootLoaderPath, by simp [h, vmInsert]⟩
  · cases hf : findPartitionByMountPoint devices bootLoaderPath with
    | none => exact Or.inr (by simp [h, hf])
    | some q => exact Or.inl ⟨q.partitionPath, by simp [h, hf, vmInsert]⟩

/-- The state written by one run of `exec`, in closed form. -/
theorem exec_storage_eq (env : Env) (devices : List Device) (bootLoaderPath : String)
    (storage : GStorage) :
    (exec env devices bootLoaderPath storage).2
      = vmInsert (vmInsert storage "partitions" (createPartitionList env devices))
          "bootLoader"
          (if ¬ bootLoaderPath.isEmpty then createBootLoaderMap devices bootLoaderPath
           else QVariant.invalid) := by
  by_cases h : bootLoaderPath.isEmpty <;> simp [exec, h]

/-- Claim C6: `exec` overwrites exactly the keys "partitions" and
"bootLoader": "partitions" receives the full record list, "bootLoader" a
record holding "installPath" or an explicitly invalid value, both keys are
present afterwards, and every other key keeps its previous value. -/
theorem C6_exec_writes_exactly_two_keys (env : Env) (devices : List Device)
    (bootLoaderPath : String) (storage : GStorage) :
    vmValue (exec env devices bootLoaderPath storage).2 "partitions"
        = createPartitionList env devices
    ∧ vmValue (exec env devices bootLoaderPath storage).2 "bootLoader"
        = (if ¬ bootLoaderPath.isEmpty then createBootLoaderMap devices bootLoaderPath
           else QVariant.invalid)
    ∧ vmContains (exec env devices bootLoaderPath storage).2 "partitions" = true
    ∧ vmContains (exec env devices bootLoaderPath storage).2 "bootLoader" = true
    ∧ (∀ k, k ≠ "partitions" → k ≠ "bootLoader" →
        vmValue (exec env devices bootLoaderPath storage).2 k = vmValue storage k)
    ∧ ((∃ ipath, vmValue (exec env devices bootLoaderPath storage).2 "bootLoader"
          = QVariant.map [("installPath", QVariant.str ipath)])
        ∨ vmValue (exec env devices bootLoaderPath storage).2 "bootLoader"
          = QVariant.invalid) := by
  rw [exec_storage_eq]
  refine ⟨?_, ?_, ?_, ?_, ?_, ?_⟩
  · rw [vmValue_vmInsert_ne _ _ _ _ (by decide), vmValue_vmInsert_self]
  · rw [vmValue_vmInsert_self]
  · exact vmContains_vmInsert _ _ _ _ (vmContains_vmInsert_self _ _ _)
  · exact vmContains_vmInsert_self _ _ _
  · intro k hk1 hk2
    rw [vmValue_vmInsert_ne _ _ _ _ (Ne.symm hk2), vmValue_vmInsert_ne _ _ _ _ (Ne.symm hk1)]
  · rw [vmValue_vmInsert_self]
    by_cases h : bootLoaderPath.isEmpty
    · exact Or.inr (by simp [h])
    · rcases createBootLoaderMap_shape devices bootLoaderPath with ⟨ipath, hip⟩ | hinv
      · exact Or.inl ⟨ipath, by simp [h, hip]⟩
      · exact Or.inr (by simp [h, hinv])

/-- Witness for C6 at a concrete input with a previously populated
storage. -/
theorem C6_exec_writes_exactly_two_keys_witness :
    vmValue (exec envFix [sdaDev] "/dev/sda" [("bootLoader", QVariant.str "old")]).2 "partitions"
        = createPartitionList envFix [sdaDev]
    ∧ vmValue (exec envFix [sdaDev] "/dev/sda" [("bootLoader", QVariant.str "old")]).2 "other"
        = vmValue [("bootLoader", QVariant.str "old")] "other" :=
  ⟨(C6_exec_writes_exactly_two_keys envFix [sdaDev] "/dev/sda"
      [("bootLoader", QVariant.str "old")]).1,
   (C6_exec_writes_exactly_two_keys envFix [sdaDev] "/dev/sda"
      [("bootLoader", QVariant.str "old")]).2.2.2.2.1 "other" (by decide) (by decide)⟩

/-- Claim C8: with a fixed environment and fixed inputs, a second run of
`exec` reproduces the first run's result and leaves the storage exactly as
the first run left it, including the stored partition list and bootloader
record. -/
theorem C8_exec_idempotent (env : Env) (devices : List Device) (bootLoaderPath : String)
    (storage : GStorage) :
    (exec env devices bootLoaderPath ((exec env devices bootLoaderPath storage).2)).2
        = (exec env devices bootLoaderPath storage).2
    ∧ (exec env devices bootLoaderPath ((exec env devices bootLoaderPath storage).2)).1
        = (exec env devices bootLoaderPath storage).1
    ∧ vmValue (exec env devices bootLoaderPath ((exec env devices bootLoaderPath storage).2)).2
          "partitions"
        = vmValue (exec env devices bootLoaderPath storage).2 "partitions"
    ∧ vmValue (exec env devices bootLoaderPath ((exec env devices bootLoaderPath storage).2)).2
          "bootLoader"
        = vmValue (exec env devices bootLoaderPath storage).2 "bootLoader" := by
  have hstate :
      (exec env devices bootLoaderPath ((exec env devices bootLoaderPath storage).2)).2
        = (exec env devices bootLoaderPath storage).2 := by
    rw [exec_storage_eq, exec_storage_eq]
    have hcontp : vmContains
        (vmInsert (vmInsert storage "partitions" (createPartitionList env devices))
          "bootLoader"
          (if ¬ bootLoaderPath.isEmpty then createBootLoaderMap devices bootLoaderPath
           else QVariant.invalid)) "partitions" = true :=
      vmContains_vmInsert _ _ _ _ (vmContains_vmInsert_self _ _ _)
    have hvalp : vmValue
        (vmInsert (vmInsert storage "partitions" (createPartitionList env devices))
          "bootLoader"
          (if ¬ bootLoaderPath.isEmpty then createBootLoaderMap devices bootLoaderPath
           else QVariant.invalid)) "partitions" = createPartitionList env devices := by
      rw [vmValue_vmInsert_ne _ _ _ _ (by decide), vmValue_vmInsert_self]
    rw [vmInsert_eq_self _ _ _ hcontp hvalp,
      vmInsert_eq_self _ _ _ (vmContains_vmInsert_self _ _ _) (vmValue_vmInsert_self _ _ _)]
  refine ⟨hstate, ?_, ?_, ?_⟩
  · by_cases h : bootLoaderPath.isEmpty <;> simp [exec, h]
  · rw [hstate]
  · rw [hstate]

/-- Claim C10: the record for a partition has exactly the six base keys,
plus the three LUKS keys exactly when the partition has the LUKS role and
its filesystem object is an `FS::luks` instance. -/
theorem C10_record_keys (env : Env) (p : Partition) (uuid : String) :
    ∀ k, k ∈ vmKeys (mapForPartition env p uuid).toMap ↔
      (k ∈ ["device", "mountPoint", "fsName", "fs", "uuid", "new"]
        ∨ ((p.roleLuks ∧ p.fileSystem.isLuksInstance)
            ∧ k ∈ ["luksMapperName", "luksUuid", "luksPassphrase"])) := by
  intro k
  by_cases h1 : p.fileSystem.fstype = FSType.luks ∧ p.fileSystem.innerFS.isSome <;>
    by_cases h2 : p.roleLuks ∧ p.fileSystem.isLuksInstance <;>
      simp [mapForPartition, mapForPartitionEntries, vmInsert, vmKeys, QVariant.toMap,
        h1, h2] <;>
      tauto

/-- Witness for C10: the LUKS fixture record carries "luksUuid", the plain
ext4 fixture record does not. -/
theorem C10_record_keys_witness :
    "luksUuid" ∈ vmKeys (mapForPartition envFix luksPart "u-3").toMap
    ∧ ¬ "luksUuid" ∈ vmKeys (mapForPartition envFix extPart "u-3").toMap := by
  constructor
  · exact (C10_record_keys envFix luksPart "u-3" "luksUuid").mpr
      (Or.inr ⟨⟨by decide, by decide⟩, by decide⟩)
  · intro h
    rcases (C10_record_keys envFix extPart "u-3" "luksUuid").mp h with hc | hc
    · exact absurd hc (by decide)
    · exact absurd hc.1.1 (by decide)

/-- The record's "device" value is the partition path. -/
theorem mapForPartition_device_value (env : Env) (p : Partition) (uuid : String) :
    vmValue (mapForPartitionEntries env p uuid) "device" = QVariant.str p.partitionPath := by
  by_cases h1 : p.fileSystem.fstype = FSType.luks ∧ p.fileSystem.innerFS.isSome <;>
    by_cases h2 : p.roleLuks ∧ p.fileSystem.isLuksInstance <;>
      simp [mapForPartitionEntries, vmInsert, vmValue, h1, h2]

/-- The record's "mountPoint" value is the partition's mount point. -/
theorem mapForPartition_mountPoint_value (env : Env) (p : Partition) (uuid : String) :
    vmValue (mapForPartitionEntries env p uuid) "mountPoint" = QVariant.str p.mountPoint := by
  by_cases h1 : p.fileSystem.fstype = FSType.luks ∧ p.fileSystem.innerFS.isSome <;>
    by_cases h2 : p.roleLuks ∧ p.fileSystem.isLuksInstance <;>
      simp [mapForPartitionEntries, vmInsert, vmValue, h1, h2]

/-- The record's "fs" value is some string. -/
theorem mapForPartition_fs_is_str (env : Env) (p : Partition) (uuid : String) :
    ∃ s, vmValue (mapForPartitionEntries env p uuid) "fs" = QVariant.str s := by
  by_cases h1 : p.fileSystem.fstype = FSType.luks ∧ p.fileSystem.innerFS.isSome <;>
    by_cases h2 : p.roleLuks ∧ p.fileSystem.isLuksInstance <;>
      simp [mapForPartitionEntries, vmInsert, vmValue, h1, h2]

/-- The description line computed for a partition record, as a function of
the partition's own fields and the record's "fs" string. -/
theorem descriptionLineFor_mapForPartition (env : Env) (p : Partition) (uuid : String)
    (spn s : String)
    (hs : vmValue (mapForPartitionEntries env p uuid) "fs" = QVariant.str s) :
    descriptionLineFor spn (mapForPartition env p uuid)
      = (if p.mountPoint.isEmpty ∨ s.isEmpty then none
         else if p.partitionPath.isEmpty then
           if p.mountPoint = "/" then some (systemPartitionNewLine spn s)
           else some (mountPointNewLine p.mountPoint s)
         else
           if p.mountPoint = "/" then some (systemPartitionExistingLine p.partitionPath spn s)
           else some (mountPointExistingLine p.partitionPath p.mountPoint s)) := by
  show descriptionLineFor spn (QVariant.map (mapForPartitionEntries env p uuid)) = _
  rw [descriptionLineFor]
  rw [mapForPartition_device_value, mapForPartition_mountPoint_value, hs]
  rfl

/-- The "system partition" phrase occurs in the new-root line for all
arguments. -/
theorem systemPartition_phrase_in_newLine (spn fs : String) :
    "system partition".data <:+: (systemPartitionNewLine spn fs).data := by
  have h1 : "system partition".data <:+: " system partition.".data := by decide
  have h2 : " system partition.".data <:+ (systemPartitionNewLine spn fs).data := by
    unfold systemPartitionNewLine
    rw [String.data_append]
    exact List.suffix_append _ _
  exact h1.trans h2.isInfix

/-- The "system partition" phrase occurs in the existing-root line for all
arguments. -/
theorem systemPartition_phrase_in_existingLine (path spn fs : String) :
    "system partition".data <:+: (systemPartitionExistingLine path spn fs).data := by
  have h1 : "system partition".data <:+: " system partition <strong>".data := by decide
  have h2 : " system partition <strong>".data <:+: (systemPartitionExistingLine path spn fs).data := by
    refine ⟨("Install " ++ spn ++ " on " ++ fs).data, (path ++ "</strong>.").data, ?_⟩
    simp [systemPartitionExistingLine, String.data_append, List.append_assoc]
  exact h1.trans h2

set_option maxRecDepth 8192 in
/-- Claim C7: a record with non-empty filesystem name and mount point "/"
yields a system-partition line (which contains the phrase "system
partition"), a record with a non-root mount point yields a mount-point
line instead, a record with an empty mount point or filesystem name
yields no line, and the new-versus-existing template is chosen by whether
the record's device path is empty (the mount-point line templates do not
contain the phrase). -/
theorem C7_description_line_cases (env : Env) (p : Partition) (uuid : String) :
    ((p.mountPoint.isEmpty
        ∨ ((vmValue (mapForPartition env p uuid).toMap "fs").toString).isEmpty) →
      descriptionLineFor env.shortProductName (mapForPartition env p uuid) = none)
    ∧ (¬ p.mountPoint.isEmpty →
        ¬ ((vmValue (mapForPartition env p uuid).toMap "fs").toString).isEmpty →
        p.mountPoint = "/" →
      descriptionLineFor env.shortProductName (mapForPartition env p uuid)
        = some (if p.partitionPath.isEmpty
            then systemPartitionNewLine env.shortProductName
              ((vmValue (mapForPartition env p uuid).toMap "fs").toString)
            else systemPartitionExistingLine p.partitionPath env.shortProductName
              ((vmValue (mapForPartition env p uuid).toMap "fs").toString)))
    ∧ (¬ p.mountPoint.isEmpty →
        ¬ ((vmValue (mapForPartition env p uuid).toMap "fs").toString).isEmpty →
        p.mountPoint ≠ "/" →
      descriptionLineFor env.shortProductName (mapForPartition env p uuid)
        = some (if p.partitionPath.isEmpty
            then mountPointNewLine p.mountPoint
              ((vmValue (mapForPartition env p uuid).toMap "fs").toString)
            else mountPointExistingLine p.partitionPath p.mountPoint
              ((vmValue (mapForPartition env p uuid).toMap "fs").toString)))
    ∧ (p.mountPoint = "/" → ∀ s,
        descriptionLineFor env.shortProductName (mapForPartition env p uuid) = some s →
        "system partition".data <:+: s.data)
    ∧ (¬ ("system partition".data <:+: (mountPointNewLine "" "").data)
        ∧ ¬ ("system partition".data <:+: (mountPointExistingLine "" "" "").data)) := by
  obtain ⟨s, hs⟩ := mapForPartition_fs_is_str env p uuid
  have hT : (vmValue (mapForPartition env p uuid).toMap "fs").toString = s := by
    show (vmValue (mapForPartitionEntries env p uuid) "fs").toString = s
    rw [hs]
    rfl
  have hline := descriptionLineFor_mapForPartition env p uuid env.shortProductName s hs
  rw [hT, hline]
  refine ⟨?_, ?_, ?_, ?_, by decide, by decide⟩
  · intro h
    simp [h]
  · intro hm hf hroot
    rw [hroot] at hm
    rw [hroot, if_neg (by simp [hm, hf])]
    by_cases hp : p.partitionPath.isEmpty <;> simp [hp]
  · intro hm hf hroot
    rw [if_neg (by simp [hm, hf])]
    by_cases hp : p.partitionPath.isEmpty <;> simp [hp, hroot]
  · intro hroot t ht
    by_cases hempty : p.mountPoint.isEmpty ∨ s.isEmpty
    · rw [if_pos hempty] at ht
      exact absurd ht (by simp)
    · rw [if_neg hempty] at ht
      by_cases hp : p.partitionPath.isEmpty
      · rw [if_pos hp, if_pos hroot] at ht
        rw [← Option.some.inj ht]
        exact systemPartition_phrase_in_newLine _ _
      · rw [if_neg hp, if_pos hroot] at ht
        rw [← Option.some.inj ht]
        exact systemPartition_phrase_in_existingLine _ _ _

/-- Witness for C7 at the LUKS fixture partition: an existing partition
mounted at "/" yields the existing-system-partition line for the inner
filesystem name. -/
theorem C7_description_line_cases_witness :
    descriptionLineFor "Pisces" (mapForPartition envFix luksPart "u-4")
      = some (systemPartitionExistingLine "/dev/sda2" "Pisces" "ext4") :=
  (C7_description_line_cases envFix luksPart "u-4").2.1 (by decide) (by decide) rfl

/-- Claim C9: for a non-empty bootloader path that resolves to no
partition, the description still ends with the "Install boot loader on"
line built from the raw configured path, while `exec` records an invalid
bootloader value. -/
theorem C9_bootloader_line_despite_absent_record (env : Env) (devices : List Device)
    (bootLoaderPath : String) (storage : GStorage)
    (h1 : ¬ bootLoaderPath.isEmpty) (h2 : ¬ qtStartsWith bootLoaderPath "/dev/")
    (h3 : findPartitionByMountPoint devices bootLoaderPath = none) :
    (prettyDescriptionLines env devices bootLoaderPath).getLast?
        = some (bootLoaderLine bootLoaderPath)
    ∧ bootLoaderLine bootLoaderPath
        = "Install boot loader on <strong>" ++ bootLoaderPath ++ "</strong>."
    ∧ createBootLoaderMap devices bootLoaderPath = QVariant.invalid
    ∧ vmValue (exec env devices bootLoaderPath storage).2 "bootLoader" = QVariant.invalid := by
  have hb : createBootLoaderMap devices bootLoaderPath = QVariant.invalid := by
    simp [createBootLoaderMap, h2, h3]
  refine ⟨?_, rfl, hb, ?_⟩
  · simp [prettyDescriptionLines, h1, List.getLast?_concat]
  · rw [exec_storage_eq, vmValue_vmInsert_self]
    simp [h1, hb]

/-- Witness for C9 at the unresolvable mount point "/efi". -/
theorem C9_bootloader_line_despite_absent_record_witness :
    (¬ ("/efi").isEmpty ∧ ¬ qtStartsWith "/efi" "/dev/"
      ∧ findPartitionByMountPoint [sdaDev] "/efi" = none)
    ∧ (prettyDescriptionLines envFix [sdaDev] "/efi").getLast? = some (bootLoaderLine "/efi")
    ∧ vmValue (exec envFix [sdaDev] "/efi" []).2 "bootLoader" = QVariant.invalid :=
  ⟨⟨by decide, by decide, rfl⟩,
   (C9_bootloader_line_despite_absent_record envFix [sdaDev] "/efi" []
      (by decide) (by decide) rfl).1,
   (C9_bootloader_line_despite_absent_record envFix [sdaDev] "/efi" []
      (by decide) (by decide) rfl).2.2.2⟩

end Calamares
